import Mathlib

/-
Verification of `testdata.py` from kempenep/geobenchmark.

The module prepares benchmark sample data: it resolves a destination path,
returns early on a cache hit, downloads, optionally unzips and converts, and
cleans up a scratch directory in a `finally` block.

Shallow embedding conventions:
* A filesystem path is a list of components (`FPath`).  `str(a) != str(b)`
  becomes list inequality, `p.parent` becomes `p.dropLast`, `p / x` becomes
  `p ++ [x]`.
* The filesystem is the set of existing paths (`FS.entries`).
* External, non-deterministic effects (network download, zip contents,
  geofileops move / makevalid outcomes, the platform temp dir) are supplied
  by an oracle `Env`.  Each effectful step appends an event to a trace, so
  that claims about "network I/O", "directory creation" etc. are claims
  about the trace.
* Python exceptions become `Except Err`.  The single `raise Exception` in
  the source interpolates the found-file list and its length into the
  message; the embedding keeps that data structured in
  `Err.shouldFind1 found`, and `Err.names` recovers the paths that the
  message text would name.
-/

set_option autoImplicit false

namespace Geobenchmark

/-- A filesystem path, as its list of components. -/
abbrev FPath := List String

/-! ## Python `pathlib` name helpers -/

/-- Index of the last `.` in a list of characters, if any
(Python `name.rfind(".")` when the result is not `-1`). -/
def lastDot? (cs : List Char) : Option Nat :=
  ((List.range cs.length).filter (fun i => cs.getD i ' ' == '.')).getLast?

/-- Python `PurePath.suffix` of a file name: the part from the last dot on,
empty when the dot is absent, leading or trailing. -/
def nameSuffix (s : String) : String :=
  match lastDot? s.toList with
  | none => ""
  | some i =>
    if 0 < i ∧ i + 1 < s.toList.length then String.mk (s.toList.drop i) else ""

/-- Python `PurePath.stem` of a file name. -/
def nameStem (s : String) : String :=
  match lastDot? s.toList with
  | none => s
  | some i =>
    if 0 < i ∧ i + 1 < s.toList.length then String.mk (s.toList.take i) else s

/-- ASCII lowering of one character (Python `str.lower` on the ASCII
suffixes this module handles). -/
def lowCh (c : Char) : Char :=
  if 'A' ≤ c ∧ c ≤ 'Z' then Char.ofNat (c.toNat + 32) else c

/-- Python `str.lower()` (ASCII). -/
def strLower (s : String) : String := String.mk (s.toList.map lowCh)

/-- Does `s` end with `t`?  Models a `rglob` pattern of shape `*t`. -/
def strEndsWith (s t : String) : Bool := t.toList.isSuffixOf s.toList

/-- Last component of a path (Python `Path.name`). -/
def pathName (p : FPath) : String := p.getLast?.getD ""

/-- Python `Path.stem`. -/
def pathStem (p : FPath) : String := nameStem (pathName p)

/-- Python `Path.suffix`. -/
def pathSuffix (p : FPath) : String := nameSuffix (pathName p)

/-- `q` equals `p` or lies below `p` in the directory tree. -/
def underEq (p q : FPath) : Bool := q.take p.length == p

/-- `q` lies strictly below the directory `p`. -/
def underStrict (p q : FPath) : Bool := underEq p q && decide (p.length < q.length)

/-! ## Filesystem state and effect trace -/

/-- The filesystem: the set of paths that exist. -/
structure FS where
  entries : List FPath
deriving DecidableEq

/-- One observable side effect of the routine. -/
inductive Ev where
  | mkdir : FPath → Ev
  | rmtree : FPath → Ev
  | download : String → FPath → Ev
  | extract : FPath → FPath → Ev
  | moveSh : FPath → FPath → Ev
  | moveGfo : FPath → FPath → Ev
  | makevalid : FPath → FPath → Ev
deriving DecidableEq

/-- The source path an event reads from, when it relocates or converts. -/
def evSrc : Ev → Option FPath
  | Ev.moveSh s _ => some s
  | Ev.moveGfo s _ => some s
  | Ev.makevalid s _ => some s
  | _ => none

/-- The ways the routine can raise. -/
inductive Err where
  | netFail : String → Err
  | badZip : FPath → Err
  | shouldFind1 : List FPath → Err
  | moveFail : Err
  | gfoMoveFail : Err
  | makevalidFail : Err
deriving DecidableEq

/-- The paths interpolated into the raised message.  The one explicit
`raise Exception` formats only the list of found files (plus its length);
no other error carries a path list. -/
def Err.names : Err → List FPath
  | Err.shouldFind1 found => found
  | _ => []

/-- Oracle for the effects outside the module: the platform temp location,
whether the download succeeds, the member files of the zip served by the
url (`none` for a corrupt archive), and whether `shutil.move`, `gfo.move`
and `gfo.makevalid` succeed. -/
structure Env where
  tempdir : FPath
  dlOk : Bool
  zipVal : Option (List FPath)
  shmvOk : Bool
  gfomvOk : Bool
  mkvOk : Bool

/-- Does `p` exist? -/
def pathExists (fs : FS) (p : FPath) : Bool := fs.entries.any (fun q => q == p)

/-- Create `p` (no-op when it exists). -/
def addFile (fs : FS) (p : FPath) : FS :=
  if pathExists fs p then fs else ⟨fs.entries ++ [p]⟩

/-- Remove exactly `p` (`shutil.move` taking the source away,
or plain file removal). -/
def rmEntry (fs : FS) (p : FPath) : FS :=
  ⟨fs.entries.filter (fun q => !(q == p))⟩

/-- `shutil.rmtree p`: remove `p` and everything below it. -/
def rmtree (fs : FS) (p : FPath) : FS :=
  ⟨fs.entries.filter (fun q => !underEq p q)⟩

/-- All the directories `mkdir(parents=True)` guarantees to exist. -/
def ancestors (p : FPath) : List FPath :=
  (List.range p.length).map (fun i => p.take (i + 1))

/-- `p.mkdir(parents=True, exist_ok=True)`. -/
def mkdirP (fs : FS) (p : FPath) : FS :=
  (ancestors p).foldl addFile fs

/-- `ZipFile.extractall dir`: the archive members appear below `dir`. -/
def extractTo (fs : FS) (dir : FPath) (members : List FPath) : FS :=
  (members.map (fun m => dir ++ m)).foldl addFile (addFile fs dir)

/-- A move: the source disappears, the destination appears. -/
def moveFile (fs : FS) (src dst : FPath) : FS :=
  addFile (rmEntry fs src) dst

/-- `dir.rglob ("*" ++ sfx)`: every existing path strictly below `dir`
whose name ends with `sfx`. -/
def rglob (fs : FS) (dir : FPath) (sfx : String) : List FPath :=
  fs.entries.filter (fun q => underStrict dir q && strEndsWith (pathName q) sfx)

/-- The fixed search order of recognized geo suffixes (source line 134). -/
def geoSuffixes : List String := [".shp", ".gpkg", ".tif"]

/-- Lines 133-135: `tmp_paths = []; for suffix in [...]:
tmp_paths.extend(unzippedzip_dir.rglob("*" ++ suffix))`. -/
def collectGeo (fs : FS) (dir : FPath) : List FPath :=
  geoSuffixes.foldl (fun acc sfx => acc ++ rglob fs dir sfx) []

/-- Lines 136-142: accept one or two matches and keep `tmp_paths[0]`,
otherwise raise. -/
def pickGeofile (tmp_paths : List FPath) : Except Err FPath :=
  if tmp_paths.length = 1 ∨ tmp_paths.length = 2 then
    Except.ok (tmp_paths.headD [])
  else
    Except.error (Err.shouldFind1 tmp_paths)

/-! ## The embedded functions of `testdata.py` -/

/-- Lines 160-164.  `tempdir` stands for `tempfile.gettempdir()`. -/
def prepare_dst_path (tempdir : FPath) (dst_name : String)
    (dst_dir : Option FPath) : FPath :=
  match dst_dir with
  | none => tempdir ++ ["geofileops_sampledata", dst_name]
  | some d => d ++ [dst_name]

/-- Lines 144-152: move the working file when the suffixes agree
(plain move for `.tif`, geo-aware move otherwise), convert via
`gfo.makevalid` when they differ, do nothing when source and destination
are the same path. -/
def relocateOrConvert (env : Env) (fs : FS) (dst_path tmp_path : FPath) :
    Except Err Unit × FS × List Ev :=
  if dst_path ≠ tmp_path then
    if pathSuffix dst_path = pathSuffix tmp_path then
      if pathSuffix dst_path = ".tif" then
        if env.shmvOk then
          (Except.ok (), moveFile fs tmp_path dst_path, [Ev.moveSh tmp_path dst_path])
        else
          (Except.error Err.moveFail, fs, [Ev.moveSh tmp_path dst_path])
      else
        if env.gfomvOk then
          (Except.ok (), moveFile fs tmp_path dst_path, [Ev.moveGfo tmp_path dst_path])
        else
          (Except.error Err.gfoMoveFail, fs, [Ev.moveGfo tmp_path dst_path])
    else
      if env.mkvOk then
        (Except.ok (), addFile fs dst_path, [Ev.makevalid tmp_path dst_path])
      else
        (Except.error Err.makevalidFail, fs, [Ev.makevalid tmp_path dst_path])
  else (Except.ok (), fs, [])

/-- Lines 114-116: remove a stale scratch directory, state part. -/
def staleFs (fs : FS) (tmp_dir : FPath) : FS :=
  if pathExists fs tmp_dir then rmtree fs tmp_dir else fs

/-- Lines 114-116: remove a stale scratch directory, trace part. -/
def staleTr (fs : FS) (tmp_dir : FPath) : List Ev :=
  if pathExists fs tmp_dir then [Ev.rmtree tmp_dir] else []

/-- The `try:` block, lines 114-152. -/
def tryBody (env : Env) (fs : FS) (download_url download_suffix : String)
    (dst_path tmp_dir : FPath) : Except Err FPath × FS × List Ev :=
  let fs1 := staleFs fs tmp_dir
  let tr1 := staleTr fs tmp_dir
  let fs2 := mkdirP fs1 tmp_dir
  let tr2 := tr1 ++ [Ev.mkdir tmp_dir]
  let tmp_path := tmp_dir ++ [pathStem dst_path ++ strLower download_suffix]
  let tr3 := tr2 ++ [Ev.download download_url tmp_path]
  if env.dlOk then
    let fs3 := addFile fs2 tmp_path
    if pathSuffix tmp_path = ".zip" then
      let unzippedzip_dir := dst_path.dropLast ++ [pathStem tmp_path]
      let tr4 := tr3 ++ [Ev.extract tmp_path unzippedzip_dir]
      match env.zipVal with
      | none => (Except.error (Err.badZip tmp_path), fs3, tr4)
      | some members =>
        let fs4 := extractTo fs3 unzippedzip_dir members
        let tmp_paths := collectGeo fs4 unzippedzip_dir
        match pickGeofile tmp_paths with
        | Except.error e => (Except.error e, fs4, tr4)
        | Except.ok sel =>
          let r := relocateOrConvert env fs4 dst_path sel
          (r.1.map (fun _ => dst_path), r.2.1, tr4 ++ r.2.2)
    else
      let r := relocateOrConvert env fs3 dst_path tmp_path
      (r.1.map (fun _ => dst_path), r.2.1, tr3 ++ r.2.2)
  else (Except.error (Err.netFail download_url), fs2, tr3)

/-- Lines 153-155: the `finally:` block. -/
def runFinally (tmp_dir : FPath) (r : Except Err FPath × FS × List Ev) :
    Except Err FPath × FS × List Ev :=
  if pathExists r.2.1 tmp_dir then
    (r.1, rmtree r.2.1 tmp_dir, r.2.2 ++ [Ev.rmtree tmp_dir])
  else r

/-- Lines 72-157: the full routine.  Returns the outcome (`Except`), the
final filesystem and the trace of effects. -/
def download_samplefile (env : Env) (fs : FS) (download_url download_suffix
    dst_name : String) (dst_dir : Option FPath) :
    Except Err FPath × FS × List Ev :=
  let dst_path := prepare_dst_path env.tempdir dst_name dst_dir
  if pathExists fs dst_path then (Except.ok dst_path, fs, [])
  else
    let fs1 := mkdirP fs dst_path.dropLast
    let tr1 := [Ev.mkdir dst_path.dropLast]
    if strLower download_suffix = strLower (pathSuffix dst_path) then
      if env.dlOk then
        (Except.ok dst_path, addFile fs1 dst_path,
          tr1 ++ [Ev.download download_url dst_path])
      else
        (Except.error (Err.netFail download_url), fs1,
          tr1 ++ [Ev.download download_url dst_path])
    else
      let tmp_dir := dst_path.dropLast ++ ["tmp"]
      let r := runFinally tmp_dir
        (tryBody env fs1 download_url download_suffix dst_path tmp_dir)
      (r.1, r.2.1, tr1 ++ r.2.2)


/-! ## Named intermediate values of the unpack branch

These abbreviate subterms of the unfolding of `download_samplefile` at an
uncached destination, so that theorems can speak about the state in which
the geo-file search runs.  Each is proved against the function by plain
unfolding, so a mismatch with the function body would make the theorems
below unprovable. -/

/-- The scratch directory `dst_path.parent / "tmp"` (line 112). -/
def scratchDirOf (env : Env) (dst_name : String) (dst_dir : Option FPath) : FPath :=
  (prepare_dst_path env.tempdir dst_name dst_dir).dropLast ++ ["tmp"]

/-- The download target inside the scratch directory (line 120). -/
def tmpPathOf (env : Env) (download_suffix dst_name : String)
    (dst_dir : Option FPath) : FPath :=
  scratchDirOf env dst_name dst_dir ++
    [pathStem (prepare_dst_path env.tempdir dst_name dst_dir) ++ strLower download_suffix]

/-- The extraction directory `dst_path.parent / tmp_path.stem` (line 127). -/
def unzipDirOf (env : Env) (download_suffix dst_name : String)
    (dst_dir : Option FPath) : FPath :=
  (prepare_dst_path env.tempdir dst_name dst_dir).dropLast ++
    [pathStem (tmpPathOf env download_suffix dst_name dst_dir)]

/-- The filesystem right after `zip_ref.extractall` (line 130), in which
the recursive geo-file search runs. -/
def searchFsOf (env : Env) (fs : FS) (download_suffix dst_name : String)
    (dst_dir : Option FPath) (members : List FPath) : FS :=
  extractTo
    (addFile
      (mkdirP
        (staleFs (mkdirP fs (prepare_dst_path env.tempdir dst_name dst_dir).dropLast)
          (scratchDirOf env dst_name dst_dir))
        (scratchDirOf env dst_name dst_dir))
      (tmpPathOf env download_suffix dst_name dst_dir))
    (unzipDirOf env download_suffix dst_name dst_dir) members

/-- The list the search of lines 132-135 produces. -/
def foundOf (env : Env) (fs : FS) (download_suffix dst_name : String)
    (dst_dir : Option FPath) (members : List FPath) : List FPath :=
  collectGeo (searchFsOf env fs download_suffix dst_name dst_dir members)
    (unzipDirOf env download_suffix dst_name dst_dir)

/-! ## Shared concrete inputs for witnesses and counterexamples -/

deriving instance DecidableEq for Except

/-- Oracle where every external step succeeds and the served zip holds one
shapefile. -/
def envShp : Env :=
  { tempdir := ["t"], dlOk := true, zipVal := some [["x.shp"]],
    shmvOk := true, gfomvOk := true, mkvOk := true }

/-- Oracle where every external step succeeds and the served zip holds no
recognized geo-file. -/
def envTxt : Env :=
  { tempdir := ["t"], dlOk := true, zipVal := some [["readme.txt"]],
    shmvOk := true, gfomvOk := true, mkvOk := true }

/-- A filesystem holding only the directory `d`. -/
def fsD : FS := ⟨[["d"]]⟩

/-! ## The sample registry (lines 29-69) -/

/-- The `TestFile` enumeration. -/
inductive TestFile where
  | AGRIPRC_2018
  | AGRIPRC_2019
  | S2_NDVI_2020
deriving DecidableEq

def TestFile.download_url : TestFile → String
  | TestFile.AGRIPRC_2018 =>
    "https://downloadagiv.blob.core.windows.net/landbouwgebruikspercelen/2018/Landbouwgebruikspercelen_LV_2018_GewVLA_Shape.zip"
  | TestFile.AGRIPRC_2019 =>
    "https://downloadagiv.blob.core.windows.net/landbouwgebruikspercelen/2019/Landbouwgebruikspercelen_LV_2019_GewVLA_Shapefile.zip"
  | TestFile.S2_NDVI_2020 =>
    "https://www.landbouwvlaanderen.be/bestanden/gis/Droogte%202020%20Sentinel2_NDVI_Periodiek_31370_rgb.zip"

def TestFile.download_suffix : TestFile → String
  | _ => ".zip"

def TestFile.dst_name : TestFile → String
  | TestFile.AGRIPRC_2018 => "agriprc_2018.gpkg"
  | TestFile.AGRIPRC_2019 => "agriprc_2019.gpkg"
  | TestFile.S2_NDVI_2020 => "s2_ndvi_2020.tif"

/-- Lines 55-69: `get_file` delegates to `download_samplefile`; the
feature-count logging reads the result but changes nothing. -/
def TestFile.get_file (t : TestFile) (env : Env) (fs : FS) (tmp_dir : FPath) :
    Except Err FPath × FS × List Ev :=
  download_samplefile env fs t.download_url t.download_suffix t.dst_name
    (some tmp_dir)

end Geobenchmark

namespace Geobenchmark

/-! ## Membership lemmas for the filesystem model -/

theorem pathExists_iff {fs : FS} {p : FPath} :
    pathExists fs p = true ↔ p ∈ fs.entries := by
  simp [pathExists, List.any_eq_true, beq_iff_eq]

theorem pathExists_false_iff {fs : FS} {p : FPath} :
    pathExists fs p = false ↔ p ∉ fs.entries := by
  rw [← Bool.not_eq_true, pathExists_iff]

theorem addFile_mem {fs : FS} {p q : FPath} :
    q ∈ (addFile fs p).entries ↔ q ∈ fs.entries ∨ q = p := by
  unfold addFile
  split
  · rename_i h
    rw [pathExists_iff] at h
    exact ⟨Or.inl, fun hq => hq.elim id (fun e => e ▸ h)⟩
  · simp [List.mem_append]

theorem rmEntry_mem {fs : FS} {p q : FPath} :
    q ∈ (rmEntry fs p).entries ↔ q ∈ fs.entries ∧ q ≠ p := by
  simp [rmEntry, List.mem_filter]

theorem rmtree_mem {fs : FS} {p q : FPath} :
    q ∈ (rmtree fs p).entries ↔ q ∈ fs.entries ∧ underEq p q = false := by
  simp [rmtree, List.mem_filter]

theorem foldl_addFile_mem (l : List FPath) (fs : FS) (q : FPath) :
    q ∈ (l.foldl addFile fs).entries ↔ q ∈ fs.entries ∨ q ∈ l := by
  induction l generalizing fs with
  | nil => simp
  | cons a l ih => simp [List.foldl_cons, ih, addFile_mem, or_assoc]

theorem mkdirP_mem {fs : FS} {p q : FPath} :
    q ∈ (mkdirP fs p).entries ↔ q ∈ fs.entries ∨ q ∈ ancestors p :=
  foldl_addFile_mem _ _ _

theorem extractTo_mem {fs : FS} {dir q : FPath} {ms : List FPath} :
    q ∈ (extractTo fs dir ms).entries ↔
      (q ∈ fs.entries ∨ q = dir) ∨ q ∈ ms.map (fun m => dir ++ m) := by
  simp [extractTo, foldl_addFile_mem, addFile_mem]

theorem moveFile_mem {fs : FS} {s d q : FPath} :
    q ∈ (moveFile fs s d).entries ↔ (q ∈ fs.entries ∧ q ≠ s) ∨ q = d := by
  simp [moveFile, addFile_mem, rmEntry_mem]

theorem staleFs_mem {fs : FS} {td q : FPath} :
    q ∈ (staleFs fs td).entries → q ∈ fs.entries := by
  unfold staleFs
  split
  · rw [rmtree_mem]; exact And.left
  · exact id

/-! ## Path-shape lemmas -/

theorem underEq_refl (p : FPath) : underEq p p = true := by
  simp [underEq]

theorem underEq_iff_eq_of_len {p q : FPath} (h : p.length = q.length) :
    underEq p q = true ↔ p = q := by
  rw [underEq, h, List.take_length, beq_iff_eq, eq_comm]

theorem underEq_false_of_lt {p q : FPath} (h : q.length < p.length) :
    underEq p q = false := by
  rw [underEq, beq_eq_false_iff_ne]
  intro he
  have := congrArg List.length he
  rw [List.length_take] at this
  omega

theorem length_lt_of_underStrict {p q : FPath} (h : underStrict p q = true) :
    p.length < q.length := by
  rw [underStrict, Bool.and_eq_true, decide_eq_true_eq] at h
  exact h.2

theorem underEq_of_underStrict {p q : FPath} (h : underStrict p q = true) :
    underEq p q = true := by
  rw [underStrict, Bool.and_eq_true] at h
  exact h.1

theorem prepare_dst_path_shape (td : FPath) (n : String) (d : Option FPath) :
    ∃ pre, prepare_dst_path td n d = pre ++ [n] := by
  cases d with
  | none => exact ⟨td ++ ["geofileops_sampledata"], by simp [prepare_dst_path]⟩
  | some d => exact ⟨d, rfl⟩

theorem prepare_dst_path_name (td : FPath) (n : String) (d : Option FPath) :
    pathName (prepare_dst_path td n d) = n := by
  obtain ⟨pre, hp⟩ := prepare_dst_path_shape td n d
  rw [hp, pathName, List.getLast?_concat]
  rfl

theorem prepare_dst_path_dropLast (td : FPath) (n : String) (d : Option FPath) :
    (prepare_dst_path td n d).dropLast ++ [n] = prepare_dst_path td n d := by
  obtain ⟨pre, hp⟩ := prepare_dst_path_shape td n d
  rw [hp, List.dropLast_concat]

/-! ## `finally`-block lemmas -/

theorem runFinally_fst (td : FPath) (r : Except Err FPath × FS × List Ev) :
    (runFinally td r).1 = r.1 := by
  unfold runFinally; split <;> rfl

theorem runFinally_not_exists (td : FPath) (r : Except Err FPath × FS × List Ev) :
    pathExists (runFinally td r).2.1 td = false := by
  unfold runFinally
  split
  · rw [pathExists_false_iff, rmtree_mem]
    simp [underEq_refl]
  · rename_i h
    exact Bool.not_eq_true _ ▸ h

theorem runFinally_mem_tr {td : FPath} {r : Except Err FPath × FS × List Ev}
    {e : Ev} (h : e ∈ r.2.2) : e ∈ (runFinally td r).2.2 := by
  unfold runFinally
  split
  · simp [List.mem_append]; exact Or.inl h
  · exact h

theorem runFinally_keeps {td q : FPath} {r : Except Err FPath × FS × List Ev}
    (hq : q ∈ r.2.1.entries) (hne : underEq td q = false) :
    q ∈ (runFinally td r).2.1.entries := by
  unfold runFinally
  split
  · rw [rmtree_mem]; exact ⟨hq, hne⟩
  · exact hq

end Geobenchmark

namespace Geobenchmark

/-! ## Claims -/

/-- Claim C5: in the unpack/convert branch, a working file whose suffix
equals the destination's is relocated — by plain `shutil.move` when that
suffix is `.tif`, by the geo-aware `gfo.move` for the other (vector)
suffixes — while a working file with a different suffix goes through
`gfo.makevalid`, which writes the destination file. -/
theorem relocateOrConvert_dispatch (env : Env) (fs : FS) (dst tmp : FPath)
    (hne : dst ≠ tmp) :
    (pathSuffix dst = pathSuffix tmp → pathSuffix dst = ".tif" →
      (relocateOrConvert env fs dst tmp).2.2 = [Ev.moveSh tmp dst]) ∧
    (pathSuffix dst = pathSuffix tmp → pathSuffix dst ≠ ".tif" →
      (relocateOrConvert env fs dst tmp).2.2 = [Ev.moveGfo tmp dst]) ∧
    (pathSuffix dst ≠ pathSuffix tmp →
      (relocateOrConvert env fs dst tmp).2.2 = [Ev.makevalid tmp dst] ∧
      (env.mkvOk = true → dst ∈ (relocateOrConvert env fs dst tmp).2.1.entries)) := by
  refine ⟨?_, ?_, ?_⟩
  · intro h1 h2
    rw [relocateOrConvert, if_pos hne, if_pos h1, if_pos h2]
    by_cases hs : env.shmvOk <;> simp [hs]
  · intro h1 h2
    rw [relocateOrConvert, if_pos hne, if_pos h1, if_neg h2]
    by_cases hs : env.gfomvOk <;> simp [hs]
  · intro h1
    rw [relocateOrConvert, if_pos hne, if_neg h1]
    by_cases hs : env.mkvOk <;> simp [hs, addFile_mem]

/-- Witness for C5 at concrete inputs: a `.tif` working file destined for a
`.tif` name is moved with the plain move. -/
theorem relocateOrConvert_dispatch_witness :
    (["d", "a.tif"] : FPath) ≠ ["d", "b", "x.tif"] ∧
    (relocateOrConvert envShp fsD ["d", "a.tif"] ["d", "b", "x.tif"]).2.2
      = [Ev.moveSh ["d", "b", "x.tif"] ["d", "a.tif"]] :=
  ⟨by decide,
    (relocateOrConvert_dispatch envShp fsD ["d", "a.tif"] ["d", "b", "x.tif"]
      (by decide)).1 (by decide) (by decide)⟩

/-- Claim C7: the path resolver joins the directory with the name when a
directory is given, and joins the platform temp location, the fixed
subfolder and the name otherwise; as a Lean function of `(tempdir, name,
directory)` it is pure and deterministic by construction. -/
theorem prepare_dst_path_spec (td : FPath) (dst_name : String) (d : FPath) :
    prepare_dst_path td dst_name (some d) = d ++ [dst_name] ∧
    prepare_dst_path td dst_name none
      = td ++ ["geofileops_sampledata", dst_name] :=
  ⟨rfl, rfl⟩

/-- Claim C6 counterexample: a zip with zero recognized geo-files makes the
routine raise carrying an empty found-file list — the message names no path
at all, in particular not the scratch directory `d/tmp`. -/
theorem download_samplefile_error_names_cex :
    (download_samplefile envTxt fsD "u" ".zip" "a.gpkg" (some ["d"])).1
      = Except.error (Err.shouldFind1 []) ∧
    Err.names (Err.shouldFind1 []) = [] := by
  constructor
  · decide
  · rfl

/-- Claim C8 counterexample: with source suffix `".ZIP"` the file placed in
the scratch directory is `a.zip` (stem plus the lowercased suffix), not
`a.ZIP` (stem plus the suffix exactly as given). -/
theorem download_samplefile_lower_cex :
    Ev.download "u" ["d", "tmp", "a.zip"] ∈
      (download_samplefile envShp fsD "u" ".ZIP" "a.gpkg" (some ["d"])).2.2 ∧
    Ev.download "u" ["d", "tmp", "a" ++ ".ZIP"] ∉
      (download_samplefile envShp fsD "u" ".ZIP" "a.gpkg" (some ["d"])).2.2 := by
  decide

/-- Claim C10 counterexample: with destination name `tmp.gpkg` the archive
stem is `tmp`, so the extraction directory coincides with the scratch
directory `d/tmp`: the call succeeds, extraction demonstrably targeted
`d/tmp`, and yet that directory no longer exists afterwards. -/
theorem unzip_dir_removed_cex :
    (download_samplefile envShp fsD "u" ".zip" "tmp.gpkg" (some ["d"])).1
      = Except.ok ["d", "tmp.gpkg"] ∧
    Ev.extract ["d", "tmp", "tmp.zip"] ["d", "tmp"] ∈
      (download_samplefile envShp fsD "u" ".zip" "tmp.gpkg" (some ["d"])).2.2 ∧
    pathExists (download_samplefile envShp fsD "u" ".zip" "tmp.gpkg"
      (some ["d"])).2.1 ["d", "tmp"] = false := by
  decide

/-- Claim C1 counterexample: with destination name `tmp` (and source suffix
`zip`, which differs from the empty destination suffix) the destination
path coincides with the scratch directory, which the `finally` block
removes; the first call succeeds, yet the second consecutive call performs
a network download again. -/
theorem download_samplefile_twice_cex :
    (download_samplefile envShp fsD "u" "zip" "tmp" (some ["d"])).1
      = Except.ok ["d", "tmp"] ∧
    Ev.download "u" ["d", "tmp", "tmpzip"] ∈
      (download_samplefile envShp
        ((download_samplefile envShp fsD "u" "zip" "tmp" (some ["d"])).2.1)
        "u" "zip" "tmp" (some ["d"])).2.2 := by
  decide

end Geobenchmark

namespace Geobenchmark

/-- Claim C3: whenever the unpack/convert branch is entered (destination
not cached and the lowercased source suffix differs from the lowercased
destination suffix), the scratch directory `dst_path.parent / "tmp"` does
not exist in the final filesystem, on the success path and on every error
path alike (the oracle `env` ranges over all network / zip / move / convert
outcomes). -/
theorem download_samplefile_scratch_removed (env : Env) (fs : FS)
    (url sfx name : String) (dir : Option FPath)
    (hc : pathExists fs (prepare_dst_path env.tempdir name dir) = false)
    (hm : ¬ strLower sfx = strLower (pathSuffix (prepare_dst_path env.tempdir name dir))) :
    pathExists (download_samplefile env fs url sfx name dir).2.1
      ((prepare_dst_path env.tempdir name dir).dropLast ++ ["tmp"]) = false := by
  simp only [download_samplefile, hc, Bool.false_eq_true, if_false, if_neg hm]
  exact runFinally_not_exists _ _

/-- Witness for C3: a concrete uncached `.zip` to `.gpkg` call ends with
`d/tmp` absent. -/
theorem download_samplefile_scratch_removed_witness :
    pathExists fsD (prepare_dst_path envShp.tempdir "a.gpkg" (some ["d"])) = false ∧
    pathExists (download_samplefile envShp fsD "u" ".zip" "a.gpkg" (some ["d"])).2.1
      ((prepare_dst_path envShp.tempdir "a.gpkg" (some ["d"])).dropLast ++ ["tmp"])
      = false :=
  ⟨by decide,
    download_samplefile_scratch_removed envShp fsD "u" ".zip" "a.gpkg"
      (some ["d"]) (by decide) (by decide)⟩

/-- Claim C4: with the destination uncached and the source suffix equal to
the destination suffix up to case, the routine downloads straight to the
destination path and returns it (when the network succeeds), and the only
directory-creation event is for the destination's parent — the scratch
subdirectory `.../tmp` is never created. -/
theorem download_samplefile_direct (env : Env) (fs : FS)
    (url sfx name : String) (dir : Option FPath)
    (hc : pathExists fs (prepare_dst_path env.tempdir name dir) = false)
    (hm : strLower sfx = strLower (pathSuffix (prepare_dst_path env.tempdir name dir))) :
    (env.dlOk = true →
      download_samplefile env fs url sfx name dir =
        (Except.ok (prepare_dst_path env.tempdir name dir),
         addFile (mkdirP fs (prepare_dst_path env.tempdir name dir).dropLast)
           (prepare_dst_path env.tempdir name dir),
         [Ev.mkdir (prepare_dst_path env.tempdir name dir).dropLast,
          Ev.download url (prepare_dst_path env.tempdir name dir)])) ∧
    (∀ q, Ev.mkdir q ∈ (download_samplefile env fs url sfx name dir).2.2 →
      q = (prepare_dst_path env.tempdir name dir).dropLast) := by
  constructor
  · intro hdl
    simp [download_samplefile, hc, if_pos hm, hdl]
  · intro q hq
    by_cases hdl : env.dlOk <;>
      simp [download_samplefile, hc, if_pos hm, hdl] at hq <;>
      exact hq

/-- Witness for C4: a direct `.gpkg` to `.gpkg` download. -/
theorem download_samplefile_direct_witness :
    pathExists fsD (prepare_dst_path envShp.tempdir "a.gpkg" (some ["d"])) = false ∧
    ((envShp.dlOk = true →
      download_samplefile envShp fsD "u" ".GPKG" "a.gpkg" (some ["d"]) =
        (Except.ok (prepare_dst_path envShp.tempdir "a.gpkg" (some ["d"])),
         addFile (mkdirP fsD (prepare_dst_path envShp.tempdir "a.gpkg" (some ["d"])).dropLast)
           (prepare_dst_path envShp.tempdir "a.gpkg" (some ["d"])),
         [Ev.mkdir (prepare_dst_path envShp.tempdir "a.gpkg" (some ["d"])).dropLast,
          Ev.download "u" (prepare_dst_path envShp.tempdir "a.gpkg" (some ["d"]))])) ∧
    (∀ q, Ev.mkdir q ∈ (download_samplefile envShp fsD "u" ".GPKG" "a.gpkg" (some ["d"])).2.2 →
      q = (prepare_dst_path envShp.tempdir "a.gpkg" (some ["d"])).dropLast)) :=
  ⟨by decide,
    download_samplefile_direct envShp fsD "u" ".GPKG" "a.gpkg" (some ["d"])
      (by decide) (by decide)⟩

end Geobenchmark

namespace Geobenchmark

/-! ## Helpers about the geo-file search -/

theorem headD_mem {l : List FPath} (h : l ≠ []) : l.headD [] ∈ l := by
  cases l with
  | nil => exact absurd rfl h
  | cons a l => simp

theorem headD_mem_left {l t : List FPath} (h : l ≠ []) :
    (l ++ t).headD [] ∈ l := by
  cases l with
  | nil => exact absurd rfl h
  | cons a l => simp

theorem collectGeo_eq (fs : FS) (dir : FPath) :
    collectGeo fs dir =
      rglob fs dir ".shp" ++ (rglob fs dir ".gpkg" ++ rglob fs dir ".tif") := by
  simp [collectGeo, geoSuffixes]

theorem rglob_mem {fs : FS} {dir q : FPath} {sfx : String}
    (h : q ∈ rglob fs dir sfx) :
    q ∈ fs.entries ∧ underStrict dir q = true ∧
      strEndsWith (pathName q) sfx = true := by
  rw [rglob, List.mem_filter] at h
  obtain ⟨h1, h2⟩ := h
  rw [Bool.and_eq_true] at h2
  exact ⟨h1, h2.1, h2.2⟩

theorem collectGeo_mem {fs : FS} {dir q : FPath} (h : q ∈ collectGeo fs dir) :
    q ∈ fs.entries ∧ underStrict dir q = true := by
  rw [collectGeo_eq, List.mem_append, List.mem_append] at h
  rcases h with h | h | h <;> exact ⟨(rglob_mem h).1, (rglob_mem h).2.1⟩

/-- Claim C9: the search appends the per-suffix `rglob` results in the
fixed order `.shp`, `.gpkg`, `.tif`; every result of a bucket indeed ends
with that bucket's suffix; hence whenever `pickGeofile` accepts the list
and selects its first element, that element comes from the earliest
nonempty bucket — a `.shp` always beats a `.gpkg` or `.tif` in the same
archive. -/
theorem collectGeo_priority (fs : FS) (dir : FPath) (w : FPath) :
    collectGeo fs dir =
      rglob fs dir ".shp" ++ (rglob fs dir ".gpkg" ++ rglob fs dir ".tif") ∧
    (∀ sfx q, q ∈ rglob fs dir sfx → strEndsWith (pathName q) sfx = true) ∧
    (pickGeofile (collectGeo fs dir) = Except.ok w →
      (rglob fs dir ".shp" ≠ [] → w ∈ rglob fs dir ".shp") ∧
      (rglob fs dir ".shp" = [] → rglob fs dir ".gpkg" ≠ [] →
        w ∈ rglob fs dir ".gpkg") ∧
      (rglob fs dir ".shp" = [] → rglob fs dir ".gpkg" = [] →
        w ∈ rglob fs dir ".tif")) := by
  refine ⟨collectGeo_eq fs dir, fun sfx q hq => (rglob_mem hq).2.2, ?_⟩
  intro hok
  have hw : w = (collectGeo fs dir).headD [] ∧ collectGeo fs dir ≠ [] := by
    rw [pickGeofile] at hok
    split at hok
    · rename_i hlen
      refine ⟨(Except.ok.injEq _ _).mp hok.symm, ?_⟩
      intro hnil
      rw [hnil] at hlen
      simp at hlen
    · exact absurd hok (by simp)
  obtain ⟨hw, hne⟩ := hw
  subst hw
  refine ⟨?_, ?_, ?_⟩
  · intro hA
    rw [collectGeo_eq]
    exact headD_mem_left hA
  · intro hA hB
    rw [collectGeo_eq, hA, List.nil_append]
    exact headD_mem_left hB
  · intro hA hB
    have hC : rglob fs dir ".tif" ≠ [] := by
      intro hCnil
      apply hne
      rw [collectGeo_eq, hA, hB, hCnil]
      rfl
    rw [collectGeo_eq, hA, hB, List.nil_append, List.nil_append]
    exact headD_mem hC

/-- Witness for C9: an archive holding one `.shp` and one `.gpkg`; the
selected working file is the `.shp`. -/
theorem collectGeo_priority_witness :
    pickGeofile (collectGeo ⟨[["d", "a", "x.shp"], ["d", "a", "y.gpkg"]]⟩ ["d", "a"])
      = Except.ok ["d", "a", "x.shp"] ∧
    ["d", "a", "x.shp"] ∈
      rglob ⟨[["d", "a", "x.shp"], ["d", "a", "y.gpkg"]]⟩ ["d", "a"] ".shp" :=
  ⟨by decide,
    ((collectGeo_priority ⟨[["d", "a", "x.shp"], ["d", "a", "y.gpkg"]]⟩
      ["d", "a"] ["d", "a", "x.shp"]).2.2 (by decide)).1 (by decide)⟩

/-- In the unpack branch the download into the scratch directory always
happens (and is recorded), whatever the oracle then does. -/
theorem tryBody_download_mem (env : Env) (fs : FS) (url sfx : String)
    (dst td : FPath) :
    Ev.download url (td ++ [pathStem dst ++ strLower sfx])
      ∈ (tryBody env fs url sfx dst td).2.2 := by
  simp only [tryBody]
  split
  · split
    · split
      · simp [List.mem_append]
      · split
        · simp [List.mem_append]
        · simp [List.mem_append]
    · simp [List.mem_append]
  · simp [List.mem_append]

/-- Claim C8, amended: in the unpack branch the file downloaded into the
scratch directory is named with the destination stem followed by the
LOWERCASED source suffix (the source lowercases `download_suffix` at line
120), for every oracle outcome. -/
theorem download_samplefile_tmp_name (env : Env) (fs : FS)
    (url sfx name : String) (dir : Option FPath)
    (hc : pathExists fs (prepare_dst_path env.tempdir name dir) = false)
    (hm : ¬ strLower sfx = strLower (pathSuffix (prepare_dst_path env.tempdir name dir))) :
    Ev.download url (tmpPathOf env sfx name dir)
      ∈ (download_samplefile env fs url sfx name dir).2.2 := by
  simp only [download_samplefile, hc, Bool.false_eq_true, if_false, if_neg hm]
  refine List.mem_append.mpr (Or.inr ?_)
  apply runFinally_mem_tr
  exact tryBody_download_mem env _ url sfx _ _

/-- Witness for C8's amended theorem: the `.ZIP` call downloads `a.zip`
into the scratch directory. -/
theorem download_samplefile_tmp_name_witness :
    pathExists fsD (prepare_dst_path envShp.tempdir "a.gpkg" (some ["d"])) = false ∧
    Ev.download "u" (tmpPathOf envShp ".ZIP" "a.gpkg" (some ["d"]))
      ∈ (download_samplefile envShp fsD "u" ".ZIP" "a.gpkg" (some ["d"])).2.2 :=
  ⟨by decide,
    download_samplefile_tmp_name envShp fsD "u" ".ZIP" "a.gpkg" (some ["d"])
      (by decide) (by decide)⟩

end Geobenchmark

namespace Geobenchmark

/-! ## Helpers about `pickGeofile` and the unpack branch -/

theorem pickGeofile_ok {l : List FPath} {w : FPath}
    (h : pickGeofile l = Except.ok w) : w = l.headD [] ∧ l ≠ [] := by
  rw [pickGeofile] at h
  split at h
  · rename_i hlen
    refine ⟨((Except.ok.injEq _ _).mp h).symm, ?_⟩
    intro hnil
    rw [hnil] at hlen
    simp at hlen
  · exact absurd h (by simp)

theorem relocateOrConvert_src (env : Env) (fs : FS) (dst tmp : FPath)
    (hne : dst ≠ tmp) :
    ∃ e, e ∈ (relocateOrConvert env fs dst tmp).2.2 ∧ evSrc e = some tmp := by
  rw [relocateOrConvert, if_pos hne]
  by_cases h1 : pathSuffix dst = pathSuffix tmp
  · rw [if_pos h1]
    by_cases h2 : pathSuffix dst = ".tif"
    · rw [if_pos h2]
      by_cases h3 : env.shmvOk = true
      · rw [if_pos h3]; exact ⟨Ev.moveSh tmp dst, by simp, rfl⟩
      · rw [if_neg h3]; exact ⟨Ev.moveSh tmp dst, by simp, rfl⟩
    · rw [if_neg h2]
      by_cases h3 : env.gfomvOk = true
      · rw [if_pos h3]; exact ⟨Ev.moveGfo tmp dst, by simp, rfl⟩
      · rw [if_neg h3]; exact ⟨Ev.moveGfo tmp dst, by simp, rfl⟩
  · rw [if_neg h1]
    by_cases h3 : env.mkvOk = true
    · rw [if_pos h3]; exact ⟨Ev.makevalid tmp dst, by simp, rfl⟩
    · rw [if_neg h3]; exact ⟨Ev.makevalid tmp dst, by simp, rfl⟩

/-- Every file the search finds lies strictly below the extraction
directory, so it is longer than the scratch directory path and distinct
from it. -/
theorem foundOf_not_scratch (env : Env) (fs : FS) (sfx name : String)
    (dir : Option FPath) (members : List FPath) :
    scratchDirOf env name dir ∉ foundOf env fs sfx name dir members := by
  intro hmem
  rw [foundOf] at hmem
  have hlt := length_lt_of_underStrict (collectGeo_mem hmem).2
  simp [scratchDirOf, unzipDirOf] at hlt

/-- The destination path is shorter than anything the search finds. -/
theorem foundOf_ne_dst {env : Env} {fs : FS} {sfx name : String}
    {dir : Option FPath} {members : List FPath} {q : FPath}
    (hq : q ∈ foundOf env fs sfx name dir members) :
    prepare_dst_path env.tempdir name dir ≠ q ∧
    unzipDirOf env sfx name dir ≠ q := by
  rw [foundOf] at hq
  have hlt := length_lt_of_underStrict (collectGeo_mem hq).2
  have hud : (unzipDirOf env sfx name dir).length =
      (prepare_dst_path env.tempdir name dir).dropLast.length + 1 := by
    simp [unzipDirOf]
  have hdst : (prepare_dst_path env.tempdir name dir).length =
      (prepare_dst_path env.tempdir name dir).dropLast.length + 1 := by
    conv_lhs => rw [← prepare_dst_path_dropLast env.tempdir name dir]
    simp
  constructor
  · intro he
    rw [← he, hdst, hud] at hlt
    omega
  · intro he
    rw [← he] at hlt
    omega

end Geobenchmark

namespace Geobenchmark

/-- Claim C6, amended: when the search finds zero or more than two
candidates, the raised error carries the number found and the list of the
files that were found (so the files are named exactly when some were
found), but it does not name the scratch directory — with zero candidates
it names no path at all. -/
theorem download_samplefile_error_contents (env : Env) (fs : FS)
    (url sfx name : String) (dir : Option FPath) (members : List FPath)
    (hc : pathExists fs (prepare_dst_path env.tempdir name dir) = false)
    (hm : ¬ strLower sfx = strLower (pathSuffix (prepare_dst_path env.tempdir name dir)))
    (hdl : env.dlOk = true)
    (hz : pathSuffix (tmpPathOf env sfx name dir) = ".zip")
    (hzv : env.zipVal = some members)
    (hbad : ¬ ((foundOf env fs sfx name dir members).length = 1 ∨
               (foundOf env fs sfx name dir members).length = 2)) :
    (download_samplefile env fs url sfx name dir).1
      = Except.error (Err.shouldFind1 (foundOf env fs sfx name dir members)) ∧
    Err.names (Err.shouldFind1 (foundOf env fs sfx name dir members))
      = foundOf env fs sfx name dir members ∧
    scratchDirOf env name dir ∉ foundOf env fs sfx name dir members := by
  refine ⟨?_, rfl, foundOf_not_scratch env fs sfx name dir members⟩
  simp only [foundOf, searchFsOf, unzipDirOf, tmpPathOf, scratchDirOf] at hz hbad ⊢
  simp only [download_samplefile, tryBody, hc, Bool.false_eq_true, if_false,
    if_neg hm, hdl, if_true, hzv, hz, eq_self_iff_true, if_true,
    pickGeofile, if_neg hbad]
  rw [runFinally_fst]

end Geobenchmark

namespace Geobenchmark

theorem relocateOrConvert_keeps {env : Env} {fs : FS} {dst tmp q : FPath}
    (hq : q ∈ fs.entries) (hne : q ≠ tmp) :
    q ∈ (relocateOrConvert env fs dst tmp).2.1.entries := by
  rw [relocateOrConvert]
  split_ifs <;> simp [moveFile_mem, addFile_mem, rmEntry_mem, hq, hne]

/-- Claim C2: in the zip branch, when the recursive search finds one or two
candidates the first of them becomes the working file (it is the source of
the move / geo-move / convert step that follows); when it finds zero or at
least three, the routine raises the fatal error carrying that list. -/
theorem download_samplefile_zip_count (env : Env) (fs : FS)
    (url sfx name : String) (dir : Option FPath) (members : List FPath)
    (hc : pathExists fs (prepare_dst_path env.tempdir name dir) = false)
    (hm : ¬ strLower sfx = strLower (pathSuffix (prepare_dst_path env.tempdir name dir)))
    (hdl : env.dlOk = true)
    (hz : pathSuffix (tmpPathOf env sfx name dir) = ".zip")
    (hzv : env.zipVal = some members) :
    ((foundOf env fs sfx name dir members).length = 1 ∨
     (foundOf env fs sfx name dir members).length = 2 →
      ∃ e, e ∈ (download_samplefile env fs url sfx name dir).2.2 ∧
        evSrc e = some ((foundOf env fs sfx name dir members).headD [])) ∧
    (¬ ((foundOf env fs sfx name dir members).length = 1 ∨
        (foundOf env fs sfx name dir members).length = 2) →
      (download_samplefile env fs url sfx name dir).1
        = Except.error (Err.shouldFind1 (foundOf env fs sfx name dir members))) := by
  constructor
  · intro hgood
    have hmem : (foundOf env fs sfx name dir members).headD []
        ∈ foundOf env fs sfx name dir members := by
      apply headD_mem
      intro hnil
      rw [hnil] at hgood
      simp at hgood
    have hne := (foundOf_ne_dst hmem).1
    obtain ⟨e, he, hsrc⟩ := relocateOrConvert_src env
      (searchFsOf env fs sfx name dir members)
      (prepare_dst_path env.tempdir name dir)
      ((foundOf env fs sfx name dir members).headD []) hne
    refine ⟨e, ?_, hsrc⟩
    simp only [foundOf, searchFsOf, unzipDirOf, tmpPathOf, scratchDirOf]
      at hz hgood he ⊢
    simp only [download_samplefile, tryBody, hc, Bool.false_eq_true, if_false,
      if_neg hm, hdl, if_true, hzv, hz, eq_self_iff_true, if_true,
      pickGeofile, if_pos hgood]
    refine List.mem_append.mpr (Or.inr ?_)
    apply runFinally_mem_tr
    exact List.mem_append.mpr (Or.inr he)
  · intro hbad
    simp only [foundOf, searchFsOf, unzipDirOf, tmpPathOf, scratchDirOf]
      at hz hbad ⊢
    simp only [download_samplefile, tryBody, hc, Bool.false_eq_true, if_false,
      if_neg hm, hdl, if_true, hzv, hz, eq_self_iff_true, if_true,
      pickGeofile, if_neg hbad]
    rw [runFinally_fst]

/-- Claim C10, amended: the extraction directory — a sibling of the scratch
directory, named after the archive stem — survives the cleanup, provided
that stem is not the literal name `tmp` (when it is, the extraction
directory coincides with the scratch directory and is deleted, see the
counterexample). -/
theorem unzip_dir_persists (env : Env) (fs : FS)
    (url sfx name : String) (dir : Option FPath) (members : List FPath)
    (hc : pathExists fs (prepare_dst_path env.tempdir name dir) = false)
    (hm : ¬ strLower sfx = strLower (pathSuffix (prepare_dst_path env.tempdir name dir)))
    (hdl : env.dlOk = true)
    (hz : pathSuffix (tmpPathOf env sfx name dir) = ".zip")
    (hzv : env.zipVal = some members)
    (hstem : pathStem (tmpPathOf env sfx name dir) ≠ "tmp") :
    Ev.extract (tmpPathOf env sfx name dir) (unzipDirOf env sfx name dir)
      ∈ (download_samplefile env fs url sfx name dir).2.2 ∧
    pathExists (download_samplefile env fs url sfx name dir).2.1
      (unzipDirOf env sfx name dir) = true := by
  have hSU : underEq (scratchDirOf env name dir) (unzipDirOf env sfx name dir)
      = false := by
    cases htest : underEq (scratchDirOf env name dir) (unzipDirOf env sfx name dir) with
    | false => rfl
    | true =>
      have hlen : (scratchDirOf env name dir).length
          = (unzipDirOf env sfx name dir).length := by
        simp [scratchDirOf, unzipDirOf]
      have heq := (underEq_iff_eq_of_len hlen).mp htest
      have h2 := List.append_cancel_left
        (show (prepare_dst_path env.tempdir name dir).dropLast ++ ["tmp"]
            = (prepare_dst_path env.tempdir name dir).dropLast
              ++ [pathStem (tmpPathOf env sfx name dir)] by
          simpa [scratchDirOf, unzipDirOf] using heq)
      have h3 : "tmp" = pathStem (tmpPathOf env sfx name dir) := by simpa using h2
      exact absurd h3.symm hstem
  have hUD : unzipDirOf env sfx name dir
      ∈ (searchFsOf env fs sfx name dir members).entries := by
    rw [searchFsOf, extractTo_mem]
    exact Or.inl (Or.inr rfl)
  simp only [foundOf, searchFsOf, unzipDirOf, tmpPathOf, scratchDirOf]
    at hz hSU hUD ⊢
  simp only [download_samplefile, tryBody, hc, Bool.false_eq_true, if_false,
    if_neg hm, hdl, if_true, hzv, hz, eq_self_iff_true, if_true]
  constructor
  · refine List.mem_append.mpr (Or.inr ?_)
    apply runFinally_mem_tr
    split
    · simp [List.mem_append]
    · simp [List.mem_append]
  · rw [pathExists_iff]
    refine runFinally_keeps ?_ hSU
    split
    · exact hUD
    · rename_i sel heq
      refine relocateOrConvert_keeps hUD
        ((@foundOf_ne_dst env fs sfx name dir members sel ?_).2)
      obtain ⟨hsel, hnil⟩ := pickGeofile_ok heq
      rw [hsel]
      exact headD_mem hnil

end Geobenchmark

namespace Geobenchmark

/-- Witness for C2: a zip with exactly one `.shp`; the selected working
file is that `.shp`, as the source of the conversion step. -/
theorem download_samplefile_zip_count_witness :
    ((foundOf envShp fsD ".zip" "a.gpkg" (some ["d"]) [["x.shp"]]).length = 1 ∨
     (foundOf envShp fsD ".zip" "a.gpkg" (some ["d"]) [["x.shp"]]).length = 2) ∧
    (∃ e, e ∈ (download_samplefile envShp fsD "u" ".zip" "a.gpkg" (some ["d"])).2.2 ∧
      evSrc e = some ((foundOf envShp fsD ".zip" "a.gpkg" (some ["d"]) [["x.shp"]]).headD [])) :=
  ⟨by decide,
   (download_samplefile_zip_count envShp fsD "u" ".zip" "a.gpkg" (some ["d"])
     [["x.shp"]] (by decide) (by decide) rfl (by decide) rfl).1 (by decide)⟩

/-- Witness for C6's amended theorem: the zero-candidate archive. -/
theorem download_samplefile_error_contents_witness :
    ¬ ((foundOf envTxt fsD ".zip" "a.gpkg" (some ["d"]) [["readme.txt"]]).length = 1 ∨
       (foundOf envTxt fsD ".zip" "a.gpkg" (some ["d"]) [["readme.txt"]]).length = 2) ∧
    ((download_samplefile envTxt fsD "u" ".zip" "a.gpkg" (some ["d"])).1
      = Except.error (Err.shouldFind1
          (foundOf envTxt fsD ".zip" "a.gpkg" (some ["d"]) [["readme.txt"]])) ∧
     Err.names (Err.shouldFind1
          (foundOf envTxt fsD ".zip" "a.gpkg" (some ["d"]) [["readme.txt"]]))
      = foundOf envTxt fsD ".zip" "a.gpkg" (some ["d"]) [["readme.txt"]] ∧
     scratchDirOf envTxt "a.gpkg" (some ["d"])
      ∉ foundOf envTxt fsD ".zip" "a.gpkg" (some ["d"]) [["readme.txt"]]) :=
  ⟨by decide,
   download_samplefile_error_contents envTxt fsD "u" ".zip" "a.gpkg" (some ["d"])
     [["readme.txt"]] (by decide) (by decide) rfl (by decide) rfl (by decide)⟩

/-- Witness for C10's amended theorem: archive stem `a` is not `tmp`, and
the extraction directory `d/a` indeed survives. -/
theorem unzip_dir_persists_witness :
    pathStem (tmpPathOf envShp ".zip" "a.gpkg" (some ["d"])) ≠ "tmp" ∧
    (Ev.extract (tmpPathOf envShp ".zip" "a.gpkg" (some ["d"]))
        (unzipDirOf envShp ".zip" "a.gpkg" (some ["d"]))
      ∈ (download_samplefile envShp fsD "u" ".zip" "a.gpkg" (some ["d"])).2.2 ∧
     pathExists (download_samplefile envShp fsD "u" ".zip" "a.gpkg" (some ["d"])).2.1
        (unzipDirOf envShp ".zip" "a.gpkg" (some ["d"])) = true) :=
  ⟨by decide,
   unzip_dir_persists envShp fsD "u" ".zip" "a.gpkg" (some ["d"]) [["x.shp"]]
     (by decide) (by decide) rfl (by decide) rfl (by decide)⟩

end Geobenchmark

namespace Geobenchmark

theorem except_map_ok {α β : Type} {f : α → β} {e : Except Err α} {b : β}
    (h : Except.map f e = Except.ok b) : ∃ a, e = Except.ok a ∧ f a = b := by
  cases e with
  | error e => simp [Except.map] at h
  | ok a => exact ⟨a, rfl, by simpa [Except.map] using h⟩

theorem relocateOrConvert_ok_dst {env : Env} {fs : FS} {dst tmp : FPath}
    (h : (relocateOrConvert env fs dst tmp).1 = Except.ok ()) (hne : dst ≠ tmp) :
    dst ∈ (relocateOrConvert env fs dst tmp).2.1.entries := by
  revert h
  rw [relocateOrConvert, if_pos hne]
  split
  · split
    · split
      · intro _; simp [moveFile_mem]
      · intro h; simp at h
    · split
      · intro _; simp [moveFile_mem]
      · intro h; simp at h
  · split
    · intro _; simp [addFile_mem]
    · intro h; simp at h

theorem tryBody_ok {env : Env} {fs : FS} {url sfx : String} {dst td : FPath}
    {p : FPath} (hlen : td.length = dst.length) (hne : dst ≠ [])
    (h : (tryBody env fs url sfx dst td).1 = Except.ok p) :
    p = dst ∧ dst ∈ (tryBody env fs url sfx dst td).2.1.entries := by
  have hdtmp : ∀ x : String, dst ≠ td ++ [x] := by
    intro x he
    have hc := congrArg List.length he
    rw [List.length_append, hlen] at hc
    simp at hc
  have hdu : ∀ x : String, (dst.dropLast ++ [x]).length = dst.length := by
    intro x
    have := List.length_pos.mpr hne
    simp [List.length_dropLast]
    omega
  revert h
  simp only [tryBody]
  split
  · split
    · split
      · intro h; simp at h
      · split
        · intro h; simp at h
        · rename_i sel heq
          intro h
          simp only at h
          obtain ⟨u, hrc, hp⟩ := except_map_ok h
          have hsel := pickGeofile_ok heq
          have hmem := headD_mem hsel.2
          rw [← hsel.1] at hmem
          have hlt := length_lt_of_underStrict (collectGeo_mem hmem).2
          rw [hdu _] at hlt
          have hnesel : dst ≠ sel := by
            intro he
            rw [← he] at hlt
            omega
          refine ⟨hp.symm, ?_⟩
          simp only
          exact relocateOrConvert_ok_dst hrc hnesel
    · intro h
      simp only at h
      obtain ⟨u, hrc, hp⟩ := except_map_ok h
      refine ⟨hp.symm, ?_⟩
      simp only
      exact relocateOrConvert_ok_dst hrc (hdtmp _)
  · intro h; simp at h

end Geobenchmark

namespace Geobenchmark

/-- Claim C1, amended: a cache hit returns the destination path
immediately with no effect at all (no download, no mkdir, no extraction,
no conversion: the trace is empty and the filesystem unchanged) — this
holds for every destination name; and, provided the destination name is
not the literal `tmp` (in which case the destination path coincides with
the scratch directory that the `finally` block deletes, see the
counterexample), any successful call leaves the destination in place, so a
second consecutive call with the same arguments returns the same path as a
pure cache hit with an empty trace, performing no network I/O. -/
theorem download_samplefile_cache_idem (env envB : Env) (fs : FS)
    (url sfx name : String) (dir : Option FPath)
    (htd : envB.tempdir = env.tempdir) :
    (pathExists fs (prepare_dst_path env.tempdir name dir) = true →
      download_samplefile env fs url sfx name dir
        = (Except.ok (prepare_dst_path env.tempdir name dir), fs, [])) ∧
    (name ≠ "tmp" →
      ∀ p, (download_samplefile env fs url sfx name dir).1 = Except.ok p →
      p = prepare_dst_path env.tempdir name dir ∧
      download_samplefile envB (download_samplefile env fs url sfx name dir).2.1
          url sfx name dir
        = (Except.ok p, (download_samplefile env fs url sfx name dir).2.1, [])) := by
  constructor
  · intro hhit
    simp [download_samplefile, hhit]
  · intro hname p h
    have hdst_mem : p = prepare_dst_path env.tempdir name dir ∧
        prepare_dst_path env.tempdir name dir
          ∈ (download_samplefile env fs url sfx name dir).2.1.entries := by
      by_cases hhit : pathExists fs (prepare_dst_path env.tempdir name dir) = true
      · simp [download_samplefile, hhit] at h ⊢
        exact ⟨h.symm, pathExists_iff.mp hhit⟩
      · have hcF : pathExists fs (prepare_dst_path env.tempdir name dir) = false := by
          rwa [Bool.not_eq_true] at hhit
        by_cases hm : strLower sfx = strLower (pathSuffix (prepare_dst_path env.tempdir name dir))
        · by_cases hdl : env.dlOk = true
          · simp [download_samplefile, hcF, hm, hdl] at h ⊢
            exact ⟨h.symm, addFile_mem.mpr (Or.inr rfl)⟩
          · simp [download_samplefile, hcF, hm, hdl] at h
        · simp only [download_samplefile, hcF, Bool.false_eq_true, if_false,
            if_neg hm] at h ⊢
          rw [runFinally_fst] at h
          obtain ⟨pre, hpre⟩ := prepare_dst_path_shape env.tempdir name dir
          have hdne : prepare_dst_path env.tempdir name dir ≠ [] := by
            rw [hpre]; simp
          have hlen : ((prepare_dst_path env.tempdir name dir).dropLast
              ++ ["tmp"]).length = (prepare_dst_path env.tempdir name dir).length := by
            rw [hpre]; simp
          obtain ⟨hp, hmem⟩ := tryBody_ok hlen hdne h
          refine ⟨hp, ?_⟩
          have hund : underEq ((prepare_dst_path env.tempdir name dir).dropLast
              ++ ["tmp"]) (prepare_dst_path env.tempdir name dir) = false := by
            cases htest : underEq ((prepare_dst_path env.tempdir name dir).dropLast
                ++ ["tmp"]) (prepare_dst_path env.tempdir name dir) with
            | false => rfl
            | true =>
              have h1 := (underEq_iff_eq_of_len hlen).mp htest
              have h2 := h1.trans (prepare_dst_path_dropLast env.tempdir name dir).symm
              have h3 := List.append_cancel_left h2
              have h4 : "tmp" = name := by simpa using h3
              exact absurd h4.symm hname
          exact runFinally_keeps hmem hund
    obtain ⟨hp, hmem⟩ := hdst_mem
    refine ⟨hp, ?_⟩
    rw [hp]
    generalize hgen : (download_samplefile env fs url sfx name dir).2.1 = fs2 at hmem ⊢
    have hx : pathExists fs2 (prepare_dst_path env.tempdir name dir) = true :=
      pathExists_iff.mpr hmem
    simp [download_samplefile, htd, hx]

end Geobenchmark

namespace Geobenchmark

/-- Witness for C1's amended theorem: an uncached `.zip` to `.gpkg` call
succeeds, and the second consecutive call with the same arguments is a pure
cache hit — same path, unchanged filesystem, empty trace (no network). -/
theorem download_samplefile_cache_idem_witness :
    (["d", "a.gpkg"] : FPath) = prepare_dst_path envShp.tempdir "a.gpkg" (some ["d"]) ∧
    download_samplefile envShp
        (download_samplefile envShp fsD "u" ".zip" "a.gpkg" (some ["d"])).2.1
        "u" ".zip" "a.gpkg" (some ["d"])
      = (Except.ok ["d", "a.gpkg"],
         (download_samplefile envShp fsD "u" ".zip" "a.gpkg" (some ["d"])).2.1, []) :=
  (download_samplefile_cache_idem envShp envShp fsD "u" ".zip" "a.gpkg"
    (some ["d"]) rfl).2 (by decide) ["d", "a.gpkg"] (by decide)

end Geobenchmark
